import Mathlib

/-!
Verification of the Query Analysis & Knowledge Retrieval Engine of the
hardware-ai-orchestrator repository.

The Python sources embedded here are:
  * src/src/classification/intent_classifier.py  (HardwareIntentClassifier)
  * src/src/classification/complexity_scorer.py  (HardwareComplexityScorer)
  * src/src/config/complexity_weights.py         (COMPLEXITY_FACTORS, COMPLEXITY_THRESHOLDS)
  * src/src/knowledge/retrieval_engine.py        (HardwareRetrievalEngine)

Scores are modelled as rationals (`ℚ`), Python float literals carried over
exactly.  Code that can raise is modelled in `Except`.  External read-only
data (the component/standards collections, the intent-category table which
is not part of the sources) is passed as parameters, with a concrete table
modelled from the specification where a concrete instance is needed.
-/

/-- Lowercase a string into a character list; models Python `str.lower()`
as used before keyword / substring matching (ASCII data throughout). -/
def lowerL (s : String) : List Char := s.toList.map Char.toLower

/-- Regex word character, the class `\w` used by the `\b` boundaries in the
compiled patterns `\b(kw1|kw2|...)\b`. -/
def isWordChar (c : Char) : Bool := c.isAlphanum || c == '_'

/-- A `\b` boundary holds before a match position: start of text or the
previous character is not a word character. -/
def boundaryBefore (prev : Option Char) : Bool :=
  match prev with
  | none => true
  | some c => !isWordChar c

/-- A `\b` boundary holds after a match: end of text or the next character
is not a word character. -/
def boundaryAfter : List Char → Bool
  | [] => true
  | c :: _ => !isWordChar c

/-- Substring test (Python's `needle in haystack`). -/
def isSubAux : List Char → List Char → Bool
  | n, [] => n.isEmpty
  | n, c :: rest => n.isPrefixOf (c :: rest) || isSubAux n rest

/-- At the current position, try the regex alternatives (the keyword list)
in order and return the first keyword that matches with both `\b`
boundaries satisfied — the backtracking behaviour of
`\b(kw1|kw2|...)\b` at one scan position. -/
def tryKeywordMatch (kws : List (List Char)) (prev : Option Char)
    (text : List Char) : Option (List Char) :=
  kws.find? (fun kw =>
    !kw.isEmpty && kw.isPrefixOf text && boundaryBefore prev
      && boundaryAfter (text.drop kw.length))

/-- Left-to-right non-overlapping scan of `re.findall`: at each position try
the alternatives; on a match continue after its end, otherwise advance one
character.  `fuel` bounds the recursion by the text length. -/
def countMatchesAux (kws : List (List Char)) :
    Nat → Option Char → List Char → Nat
  | 0, _, _ => 0
  | _ + 1, _, [] => 0
  | fuel + 1, prev, c :: rest =>
    match tryKeywordMatch kws prev (c :: rest) with
    | some kw =>
        1 + countMatchesAux kws fuel (kw.getLastD c)
              (List.drop kw.length (c :: rest))
    | none => countMatchesAux kws fuel (some c) rest

/-- `len(pattern.findall(query))` for the case-insensitive whole-word
pattern `\b(kw1|kw2|...)\b` compiled from `keywords` — the keyword counter
shared by `HardwareIntentClassifier._compile_patterns` and
`HardwareComplexityScorer._compile_patterns`. -/
def countKeywordMatches (keywords : List String) (query : String) : Nat :=
  let text := lowerL query
  countMatchesAux (keywords.map lowerL) text.length none text

/-- Python `str.split()` with no argument: split on whitespace runs,
dropping empty pieces. -/
def pySplit (s : String) : List String :=
  (s.split Char.isWhitespace).filter (fun w => w ≠ "")

/-- One entry of the INTENT_CATEGORIES configuration table (see the data
model: identifier, keyword list, complexity-indicator substrings, static
base-complexity multiplier). -/
structure IntentCategory where
  name : String
  keywords : List String
  complexity_indicators : List String
  base_complexity : ℚ
deriving DecidableEq

/-- Per-category score of `HardwareIntentClassifier.classify_intent`:
`base_score = min(count*0.2, 1.0)`, then `+0.1` per complexity-indicator
substring present in the lowered query (a Python `for` loop, modelled as a
fold), times the category's `base_complexity`, clamped with
`min(final_score, 1.0)`. -/
def intentScore (c : IntentCategory) (query : String) : ℚ :=
  let keyword_count := countKeywordMatches c.keywords query
  let base_score := min ((keyword_count : ℚ) * (2/10)) 1
  let boosted := c.complexity_indicators.foldl
    (fun acc ind => if isSubAux (lowerL ind) (lowerL query) then acc + 1/10 else acc)
    base_score
  min (boosted * c.base_complexity) 1

/-- `HardwareIntentClassifier.classify_intent`: one confidence per category,
in table iteration order. -/
def classify_intent (cats : List IntentCategory) (query : String) :
    List (String × ℚ) :=
  cats.map (fun c => (c.name, intentScore c query))

/-- One step of Python's `max(items, key=lambda x: x[1])` scan: keep the
current element unless a later one is strictly greater, so the first
maximum wins. -/
def pyMaxStep (acc : Option (String × ℚ)) (x : String × ℚ) :
    Option (String × ℚ) :=
  match acc with
  | none => some x
  | some a => if x.2 > a.2 then some x else some a

/-- Python `max(items, key=lambda x: x[1])`.  Returns `none` on an empty
list (where `max()` raises). -/
def pyMax2 (l : List (String × ℚ)) : Option (String × ℚ) :=
  l.foldl pyMaxStep none

/-- `max()` raising `ValueError` on an empty sequence, as an `Except`. -/
def pyMaxE (l : List (String × ℚ)) : Except String (String × ℚ) :=
  match pyMax2 l with
  | none => .error "max() arg is an empty sequence"
  | some p => .ok p

/-- `HardwareIntentClassifier.get_primary_intent`: the
`if not intent_scores` guard returns the `("educational_content", 0.3)`
fallback only for an empty score mapping; otherwise `max` by confidence. -/
def get_primary_intent (cats : List IntentCategory) (query : String) :
    Except String (String × ℚ) :=
  let intent_scores := classify_intent cats query
  if intent_scores.isEmpty then .ok ("educational_content", 3/10)
  else pyMaxE intent_scores

/-- Modelled from the spec: the INTENT_CATEGORIES table
(`src/config/intent_categories.py`) is not among the sources; the spec
fixes 12 category names (listed in the repository's tests), each with a
non-empty keyword list, complexity-indicator substrings and a
base-complexity multiplier in [0,1].  Keyword contents are illustrative;
the claims settled against this table depend only on there being 12
categories with multipliers in [0,1]. -/
def INTENT_CATEGORIES : List IntentCategory :=
  [ ⟨"component_selection", ["component", "select", "choose", "recommend"],
      ["trade-off", "comparison"], 7/10⟩,
    ⟨"circuit_analysis", ["circuit", "analyze", "impedance", "gain"],
      ["transfer function", "stability"], 8/10⟩,
    ⟨"compliance_checking", ["compliance", "standard", "certification"],
      ["functional safety", "qualification"], 9/10⟩,
    ⟨"cost_optimization", ["cost", "cheap", "budget", "price"],
      ["volume pricing"], 6/10⟩,
    ⟨"troubleshooting", ["debug", "failure", "troubleshoot", "fix"],
      ["root cause"], 7/10⟩,
    ⟨"design_validation", ["validate", "verification", "review"],
      ["worst-case"], 8/10⟩,
    ⟨"educational_content", ["what", "explain", "how", "learn"],
      ["fundamentals"], 4/10⟩,
    ⟨"supply_chain_analysis", ["supply", "availability", "lead time"],
      ["second source"], 5/10⟩,
    ⟨"thermal_analysis", ["thermal", "temperature", "heat", "cooling"],
      ["thermal resistance"], 8/10⟩,
    ⟨"testing_validation", ["test", "measurement", "characterization"],
      ["test coverage"], 7/10⟩,
    ⟨"performance_optimization", ["optimize", "efficiency", "performance"],
      ["figure of merit"], 8/10⟩,
    ⟨"quality_assurance", ["quality", "reliability", "defect"],
      ["failure rate"], 7/10⟩ ]

/-- `COMPLEXITY_FACTORS["technical_keywords_density"]["high_complexity_keywords"]`
from `src/config/complexity_weights.py`, transcribed verbatim.  Note the
source's missing comma between `"integrated"` and `"FPGA"`: Python
adjacent-literal concatenation makes the single keyword
`"integratedFPGA"`, and `"optimization"` occurs twice. -/
def TECH_KEYWORDS : List String :=
  [ "optimization", "analysis", "simulation", "modeling", "calculation", "algorithm",
    "mathematical", "statistical", "monte carlo", "worst-case", "corner analysis",
    "sensitivity", "tolerance", "derating", "thermal analysis", "EMI", "EMC",
    "signal integrity", "impedance", "transmission line", "high-frequency", "RF",
    "microcontroller", "cortex-m4", "ultra-low power", "power management",
    "connectivity", "embedded", "optimization", "integratedFPGA",
    "Xilinx", "Altera", "Intel", "VHDL", "Verilog", "SystemVerilog",
    "synthesis", "place and route", "timing closure", "resource utilization",
    "processor core", "32-bit", "64-bit", "RISC", "pipeline", "cache",
    "three-phase", "motor controller", "PLC interface", "industrial communication",
    "Modbus", "Profibus", "EtherCAT", "DeviceNet", "industrial ethernet",
    "fault-tolerant", "dual-redundant", "CISPR 25", "powertrain", "ECU",
    "IEC 60601", "patient isolation", "4kV test voltage", "medical equipment",
    "biocompatibility", "sterilization", "defibrillation", "patient applied part" ]

/-- `COMPLEXITY_FACTORS["design_constraint_count"]["constraint_keywords"]`
(the source repeats `"requirement"`). -/
def CONSTRAINT_KEYWORDS : List String :=
  [ "requirement", "constraint", "limit", "specification", "tolerance", "range",
    "minimum", "maximum", "typical", "must", "shall", "requirement", "criteria" ]

/-- `COMPLEXITY_FACTORS["domain_specificity"]["high_specificity_domains"]`. -/
def HIGH_SPECIFICITY_DOMAINS : List String :=
  ["automotive", "medical", "analog_rf", "power_electronics"]

/-- `COMPLEXITY_FACTORS["calculation_complexity"]["calculation_keywords"]`. -/
def CALCULATION_KEYWORDS : List String :=
  [ "calculate", "formula", "equation", "derive", "compute", "mathematical",
    "integration", "differentiation", "transfer function", "frequency response",
    "gain", "phase", "stability", "margin", "bandwidth", "efficiency", "evaluate", "analysis" ]

/-- `COMPLEXITY_FACTORS["standards_involvement"]["standards_keywords"]`. -/
def STANDARDS_KEYWORDS : List String :=
  [ "AEC-Q100", "ISO 26262", "IEC 60601", "ASIL", "SIL", "functional safety",
    "compliance", "certification", "qualification", "standard", "regulation",
    "EMC", "EMI", "safety", "medical grade", "automotive grade" ]

/-- `COMPLEXITY_FACTORS["multi_domain_integration"]["integration_keywords"]`. -/
def INTEGRATION_KEYWORDS : List String :=
  [ "system", "integration", "interface", "communication", "protocol", "co-design",
    "hardware-software", "multi-domain", "cross-functional", "interdisciplinary" ]

/-- The factor weights of `COMPLEXITY_FACTORS` (0.275, 0.15, 0.225, 0.15,
0.15, 0.05). -/
def technicalWeight : ℚ := 275/1000
def constraintWeight : ℚ := 15/100
def domainSpecificityWeight : ℚ := 225/1000
def calculationWeight : ℚ := 15/100
def standardsWeight : ℚ := 15/100
def integrationWeight : ℚ := 5/100

/-- Return value of `HardwareComplexityScorer.calculate_complexity`
(the `factor_scores` dict flattened into named fields). -/
structure ComplexityResult where
  technical_keywords_density : ℚ
  design_constraint_count : ℚ
  domain_specificity : ℚ
  calculation_complexity : ℚ
  standards_involvement : ℚ
  multi_domain_integration : ℚ
  final_score : ℚ
  word_count : Nat
  length_bonus : ℚ
deriving DecidableEq

/-- Factor 1 of `calculate_complexity`: `min(tech_matches * 0.2, 1.0)`. -/
def techDensity (query : String) : ℚ :=
  min ((countKeywordMatches TECH_KEYWORDS query : ℚ) * (2/10)) 1

/-- Factor 2: `min(constraint_matches * 0.25, 1.0)`. -/
def constraintScore (query : String) : ℚ :=
  min ((countKeywordMatches CONSTRAINT_KEYWORDS query : ℚ) * (25/100)) 1

/-- Factor 3: 0.8 for a high-specificity domain, 0.5 for any other truthy
domain, 0.3 when `domain` is `None` (or the falsy `""`). -/
def domainScore (domain : Option String) : ℚ :=
  match domain with
  | some d =>
      if HIGH_SPECIFICITY_DOMAINS.contains d then 8/10
      else if d ≠ "" then 5/10
      else 3/10
  | none => 3/10

/-- Factor 4: `min(calc_matches * 0.3, 1.0)`. -/
def calcScore (query : String) : ℚ :=
  min ((countKeywordMatches CALCULATION_KEYWORDS query : ℚ) * (3/10)) 1

/-- Factor 5: `min(standards_matches * 0.4, 1.0)`. -/
def standardsScore (query : String) : ℚ :=
  min ((countKeywordMatches STANDARDS_KEYWORDS query : ℚ) * (4/10)) 1

/-- Factor 6: `min(integration_matches * 0.5, 1.0)`. -/
def integrationScore (query : String) : ℚ :=
  min ((countKeywordMatches INTEGRATION_KEYWORDS query : ℚ) * (5/10)) 1

/-- The weighted sum `Σ factor_scores[f] * factors[f]["weight"]`. -/
def weightedScore (query : String) (domain : Option String) : ℚ :=
  techDensity query * technicalWeight + constraintScore query * constraintWeight
    + domainScore domain * domainSpecificityWeight + calcScore query * calculationWeight
    + standardsScore query * standardsWeight + integrationScore query * integrationWeight

/-- `word_count = len(query.split())`. -/
def wordCount (query : String) : Nat := (pySplit query).length

/-- `length_bonus = min(word_count / 50, 0.1)`. -/
def lengthBonus (query : String) : ℚ := min ((wordCount query : ℚ) / 50) (1/10)

/-- `HardwareComplexityScorer.calculate_complexity`.  The `domain`
argument defaults to `None` in Python; `some ""` models a falsy empty
string (`elif domain:` fails), any other `some d` a truthy domain.
`final_score` is the weighted factor sum plus the length bonus, clamped
with `max(0.0, min(final_score, 1.0))`. -/
def calculate_complexity (query : String) (domain : Option String) :
    ComplexityResult :=
  { technical_keywords_density := techDensity query
    design_constraint_count := constraintScore query
    domain_specificity := domainScore domain
    calculation_complexity := calcScore query
    standards_involvement := standardsScore query
    multi_domain_integration := integrationScore query
    final_score := max 0 (min (weightedScore query domain + lengthBonus query) 1)
    word_count := wordCount query
    length_bonus := lengthBonus query }

/-- `COMPLEXITY_THRESHOLDS` from `src/config/complexity_weights.py`, in
dict insertion order (most capable first). -/
def COMPLEXITY_THRESHOLDS : List (String × ℚ) :=
  [("claude_sonnet_4", 8/10), ("grok_2", 6/10), ("gpt_4o", 4/10), ("gpt_4o_mini", 0)]

/-- Modelled from the spec: the model-router module itself is not among
the sources (only its threshold table `COMPLEXITY_THRESHOLDS` is, in
`src/config/complexity_weights.py`); §4.3 mandates highest-threshold-first
evaluation (≥0.8, then ≥0.6, then ≥0.4, else the lightweight model). -/
def select_model (score : ℚ) : String :=
  match COMPLEXITY_THRESHOLDS.find? (fun p => score ≥ p.2) with
  | some p => p.1
  | none => "gpt_4o_mini"

/-- Modelled from the spec: §4.3's conservative boundary policy — a score
within 0.05 below a threshold escalates to the more capable model.  Same
highest-first evaluation against thresholds lowered by 0.05. -/
def select_model_with_escalation (score : ℚ) : String :=
  match COMPLEXITY_THRESHOLDS.find? (fun p => score ≥ p.2 - 5/100) with
  | some p => p.1
  | none => "gpt_4o_mini"

/-- Capability tier of the four downstream model identifiers,
most capable = 3. -/
def modelTier : String → Nat
  | "claude_sonnet_4" => 3
  | "grok_2" => 2
  | "gpt_4o" => 1
  | _ => 0

/-- One entry of the component result lists built by the retrieval
strategies: the nested `"component"` dict reduced to its
`component_id` key (the only key the engine reads), plus
`similarity_score`, `retrieval_method` and `relevance_factors`. -/
structure RetrievedComponent where
  component_id : String
  similarity_score : ℚ
  retrieval_method : String
  relevance_factors : List String
deriving DecidableEq

/-- `HardwareRetrievalEngine._deduplicate_components`: scan keeping the
first occurrence of each `component_id` (the `seen_ids` set). -/
def deduplicate_components_aux (seen : List String) :
    List RetrievedComponent → List RetrievedComponent
  | [] => []
  | c :: rest =>
    if seen.contains c.component_id then deduplicate_components_aux seen rest
    else c :: deduplicate_components_aux (c.component_id :: seen) rest

def deduplicate_components (l : List RetrievedComponent) :
    List RetrievedComponent :=
  deduplicate_components_aux [] l

/-- The `method_boost` dict of `HardwareRetrievalEngine._rank_components`
(`.get` with default 0.0). -/
def methodBoost (method : String) : ℚ :=
  if method = "semantic_search" then 1/10
  else if method = "compliance_based" then 8/100
  else if method = "domain_specific" then 6/100
  else if method = "intent_based" then 4/100
  else 0

/-- `ranking_key` of `_rank_components`: base similarity
(`.get("similarity_score", 0.5)`, always present here) plus the method
boost, plus 0.05 if the context's primary domain is `"automotive"` and
`"automotive"` occurs in `str(relevance_factors)` (i.e. as a substring of
some factor). -/
def ranking_key (primary_domain : String) (c : RetrievedComponent) : ℚ :=
  let base_score := c.similarity_score
  let boost := methodBoost c.retrieval_method
  let boost :=
    if primary_domain = "automotive"
        && c.relevance_factors.any (fun f => isSubAux (lowerL "automotive") (lowerL f))
    then boost + 5/100 else boost
  base_score + boost

/-- Stable insertion of `c` into a descending-sorted list: `c` goes before
the first element with a strictly smaller key, after all earlier elements
with a key ≥ its own. -/
def insertDesc (key : RetrievedComponent → ℚ) (c : RetrievedComponent) :
    List RetrievedComponent → List RetrievedComponent
  | [] => [c]
  | x :: xs => if key x ≤ key c then c :: x :: xs else x :: insertDesc key c xs

/-- Stable descending sort (insertion sort).  Python's
`sorted(components, key=ranking_key, reverse=True)` is a stable descending
sort; any stable descending sort computes the same list. -/
def sortDesc (key : RetrievedComponent → ℚ) :
    List RetrievedComponent → List RetrievedComponent
  | [] => []
  | x :: xs => insertDesc key x (sortDesc key xs)

/-- `HardwareRetrievalEngine._rank_components`. -/
def rank_components (primary_domain : String)
    (components : List RetrievedComponent) : List RetrievedComponent :=
  sortDesc (ranking_key primary_domain) components

/-- `HardwareRetrievalEngine._retrieve_components`.  The three strategy
calls touch the external component database / vector store, so their
outcomes are parameters: an `Except` value models a strategy that either
returns a list or raises.  The body concatenates the strategy results in
source order (semantic — only when the vector store was detected at
construction — then intent-based, then domain-specific), deduplicates,
ranks, and truncates to 10.  No strategy call is wrapped in a
`try`/`except`, so the monadic bind propagates a strategy's exception. -/
def retrieve_components (vector_search_available : Bool)
    (semantic_results intent_results domain_results :
      Except String (List RetrievedComponent))
    (primary_domain : String) : Except String (List RetrievedComponent) := do
  let s ← if vector_search_available then semantic_results else pure []
  let i ← intent_results
  let d ← domain_results
  pure ((rank_components primary_domain
          (deduplicate_components (s ++ i ++ d))).take 10)

/-- A standard of the external standards database: its identifier and the
identifiers of the requirements it owns (`standard.requirements`). -/
structure Standard where
  std_id : String
  requirements : List String
deriving DecidableEq

/-- One entry of the standards result list built by
`_retrieve_standards` (the nested `"standard"` dict reduced to its id). -/
structure StandardEntry where
  standard_id : String
  relevance_score : ℚ
  retrieval_method : String
  specific_requirement : Option String
  applicable_to : Option String
deriving DecidableEq

/-- The standard identifiers `_retrieve_standards` looks for in the
lowered query text. -/
def STANDARD_QUERY_KEYWORDS : List String := ["aec-q100", "iso 26262", "iec 60601"]

/-- `HardwareRetrievalEngine._retrieve_standards`.  External data as
parameters: `domain_standards` is `standards_db.get_standards_by_domain
(primary_domain)`, `matched_requirements` is
`standards_db.search_requirements(query)` (requirement ids), and
`standards_table` the `standards_db.standards` dict in iteration order.
Every domain standard is appended at relevance 0.9; if the query mentions
a known standard identifier, for each of the first 3 matched requirements
the first standard owning it is appended at 0.95 (`break` ends the inner
loop only). -/
def retrieve_standards (domain_standards : List Standard)
    (matched_requirements : List String) (standards_table : List Standard)
    (query : String) (primary_domain : String) : List StandardEntry :=
  let domain_entries := domain_standards.map (fun s =>
    { standard_id := s.std_id
      relevance_score := 9/10
      retrieval_method := "domain_based"
      specific_requirement := none
      applicable_to := some primary_domain })
  let query_entries :=
    if STANDARD_QUERY_KEYWORDS.any (fun kw => isSubAux (lowerL kw) (lowerL query)) then
      (matched_requirements.take 3).filterMap (fun req =>
        (standards_table.find? (fun s => s.requirements.contains req)).map (fun s =>
          { standard_id := s.std_id
            relevance_score := 95/100
            retrieval_method := "query_based"
            specific_requirement := some req
            applicable_to := none }))
    else []
  domain_entries ++ query_entries

/-- `HardwareRetrievalEngine._calculate_retrieval_confidence`: base 0.6,
plus `min(len(components)*0.05, 0.3)` when components were found, plus
`min(len(standards)*0.08, 0.2)` when standards were found, plus 0.1 when
the vector store is available, clamped with `min(..., 1.0)`. -/
def calculate_retrieval_confidence (components : List RetrievedComponent)
    (standards : List StandardEntry) (vector_search_available : Bool) : ℚ :=
  let base_confidence : ℚ := 6/10
  let base_confidence :=
    if components.isEmpty then base_confidence
    else base_confidence + min ((components.length : ℚ) * (5/100)) (3/10)
  let base_confidence :=
    if standards.isEmpty then base_confidence
    else base_confidence + min ((standards.length : ℚ) * (8/100)) (2/10)
  let base_confidence :=
    if vector_search_available then base_confidence + 1/10 else base_confidence
  min base_confidence 1

/-- `KnowledgeResult` plus the fields of `retrieval_summary` read by the
claims. -/
structure KnowledgeResult where
  components : List RetrievedComponent
  standards : List StandardEntry
  total_components : Nat
  total_standards : Nat
  retrieval_confidence : ℚ
deriving DecidableEq

/-- `HardwareRetrievalEngine.retrieve_knowledge`: component retrieval (the
only fallible part — strategy exceptions propagate), standards retrieval,
then the summary with `_calculate_retrieval_confidence`. -/
def retrieve_knowledge (vector_search_available : Bool)
    (semantic_results intent_results domain_results :
      Except String (List RetrievedComponent))
    (domain_standards : List Standard) (matched_requirements : List String)
    (standards_table : List Standard) (query : String)
    (primary_domain : String) : Except String KnowledgeResult := do
  let components ← retrieve_components vector_search_available
    semantic_results intent_results domain_results primary_domain
  let standards := retrieve_standards domain_standards matched_requirements
    standards_table query primary_domain
  pure
    { components := components
      standards := standards
      total_components := components.length
      total_standards := standards.length
      retrieval_confidence :=
        calculate_retrieval_confidence components standards
          vector_search_available }

/-- `c` occurs in `l` and is the first entry carrying its
`component_id`. -/
def firstOcc (l : List RetrievedComponent) (c : RetrievedComponent) : Prop :=
  ∃ l1 l2, l = l1 ++ c :: l2 ∧ ∀ y ∈ l1, y.component_id ≠ c.component_id

/-- The ranking key as the specification words it (for comparison with
`ranking_key`): base similarity plus method boost plus a domain-alignment
bonus whenever the candidate's relevance factors mention the query's
detected domain — for any detected domain. -/
def spec_ranking_key (primary_domain : String) (c : RetrievedComponent) : ℚ :=
  c.similarity_score + methodBoost c.retrieval_method
    + (if c.relevance_factors.any
          (fun f => isSubAux (lowerL primary_domain) (lowerL f))
       then 5/100 else 0)

/-! ## General lemmas -/

/-- The complexity-indicator loop adds 0.1 for each indicator present:
closed form of the fold. -/
theorem foldl_indicator_closed (cond : String → Bool) (inds : List String)
    (b : ℚ) :
    inds.foldl (fun acc ind => if cond ind then acc + 1/10 else acc) b
      = b + (1/10) * ((inds.filter cond).length : ℚ) := by
  induction inds generalizing b with
  | nil => simp
  | cons i is ih =>
      by_cases h : cond i
      · simp only [List.foldl_cons, h, if_true, ih, List.filter_cons, h,
          List.length_cons]
        push_cast
        ring
      · simp only [List.foldl_cons, h, if_false, ih, List.filter_cons, h]
        push_cast
        ring

/-- If no later element strictly beats the accumulator, the max scan keeps
it. -/
theorem pyMax_foldl_keep (x : String × ℚ) (xs : List (String × ℚ))
    (h : ∀ y ∈ xs, y.2 ≤ x.2) :
    xs.foldl pyMaxStep (some x) = some x := by
  induction xs with
  | nil => rfl
  | cons y ys ih =>
      have hy : ¬ y.2 > x.2 := not_lt.mpr (h y (by simp))
      simp only [List.foldl_cons, pyMaxStep, hy, if_false]
      exact ih (fun z hz => h z (by simp [hz]))

/-- If the head already dominates, `max` returns the head (Python's `max`
keeps the first of equals). -/
theorem pyMax2_cons_of_le (x : String × ℚ) (xs : List (String × ℚ))
    (h : ∀ y ∈ xs, y.2 ≤ x.2) :
    pyMax2 (x :: xs) = some x := by
  simp only [pyMax2, List.foldl_cons, pyMaxStep]
  exact pyMax_foldl_keep x xs h

/-- The scan starting from accumulator `x` over `xs` produces the first
maximum of `x :: xs`: it splits the list into a strictly-smaller front, the
maximum, and a no-greater back. -/
theorem pyMax_foldl_first_argmax (xs : List (String × ℚ)) (x : String × ℚ) :
    ∃ p l1 l2, xs.foldl pyMaxStep (some x) = some p
      ∧ x :: xs = l1 ++ p :: l2
      ∧ (∀ y ∈ l1, y.2 < p.2) ∧ (∀ y ∈ l2, y.2 ≤ p.2) ∧ x.2 ≤ p.2 := by
  induction xs generalizing x with
  | nil => exact ⟨x, [], [], rfl, rfl, by simp, by simp, le_refl _⟩
  | cons y ys ih =>
      by_cases hxy : y.2 > x.2
      · obtain ⟨p, l1, l2, h1, h2, h3, h4, h5⟩ := ih y
        refine ⟨p, x :: l1, l2, ?_, ?_, ?_, h4, le_of_lt (lt_of_lt_of_le hxy h5)⟩
        · simpa [List.foldl_cons, pyMaxStep, hxy] using h1
        · simp [h2]
        · intro z hz
          rcases List.mem_cons.mp hz with hz | hz
          · exact hz ▸ lt_of_lt_of_le hxy h5
          · exact h3 z hz
      · obtain ⟨p, l1, l2, h1, h2, h3, h4, h5⟩ := ih x
        have hstep : (y :: ys).foldl pyMaxStep (some x) = ys.foldl pyMaxStep (some x) := by
          simp [List.foldl_cons, pyMaxStep, hxy]
        rcases l1 with _ | ⟨a, l1'⟩
        · simp only [List.nil_append] at h2
          obtain ⟨hpx, hl2⟩ := List.cons.injEq .. ▸ h2
          refine ⟨p, [], y :: l2, hstep ▸ h1, ?_, by simp, ?_, h5⟩
          · simp [← hpx, ← hl2]
          · intro z hz
            rcases List.mem_cons.mp hz with hz | hz
            · exact hz ▸ (hpx ▸ not_lt.mp hxy)
            · exact h4 z hz
        · simp only [List.cons_append] at h2
          obtain ⟨hxa, hys⟩ := List.cons.injEq .. ▸ h2
          have hxlt : x.2 < p.2 := h3 a (by simp) |>.trans_le' (le_of_eq (by rw [hxa]))
          refine ⟨p, x :: y :: l1', l2, hstep ▸ h1, ?_, ?_, h4, h5⟩
          · simp [hys]
          · intro z hz
            rcases List.mem_cons.mp hz with hz | hz
            · exact hz ▸ hxlt
            · rcases List.mem_cons.mp hz with hz | hz
              · exact hz ▸ lt_of_le_of_lt (not_lt.mp hxy) hxlt
              · exact h3 z (by simp [hz])

/-- First-argmax characterization of `pyMax2` on a non-empty list. -/
theorem pyMax2_first_argmax (l : List (String × ℚ)) (h : l ≠ []) :
    ∃ p l1 l2, pyMax2 l = some p ∧ l = l1 ++ p :: l2
      ∧ (∀ y ∈ l1, y.2 < p.2) ∧ (∀ y ∈ l2, y.2 ≤ p.2) := by
  rcases l with _ | ⟨x, xs⟩
  · exact absurd rfl h
  · obtain ⟨p, l1, l2, h1, h2, h3, h4, _⟩ := pyMax_foldl_first_argmax xs x
    exact ⟨p, l1, l2, by simpa [pyMax2, List.foldl_cons, pyMaxStep] using h1, h2, h3, h4⟩

/-- `pyMax2` finds a value on any non-empty list. -/
theorem pyMax2_isSome (l : List (String × ℚ)) (h : l ≠ []) :
    ∃ p, pyMax2 l = some p := by
  obtain ⟨p, _, _, h1, _⟩ := pyMax2_first_argmax l h
  exact ⟨p, h1⟩

/-- Each count-driven factor value `min(count * c, 1.0)` is non-negative. -/
theorem count_factor_nonneg (n : ℕ) (c : ℚ) (hc : 0 ≤ c) :
    0 ≤ min ((n : ℚ) * c) 1 :=
  le_min (by positivity) zero_le_one

/-- The domain-specificity factor is between its 0.3 floor and 1. -/
theorem domainScore_bounds (dom : Option String) :
    3/10 ≤ domainScore dom ∧ domainScore dom ≤ 1 := by
  rcases dom with _ | d
  · constructor <;> norm_num [domainScore]
  · simp only [domainScore]
    split_ifs <;> constructor <;> norm_num

/-- The domain-specificity factor of `None` is exactly the 0.3 floor. -/
theorem domainScore_none : domainScore none = 3/10 := rfl

/-- The weighted factor sum dominates the domain-specificity contribution. -/
theorem weightedScore_ge_domain (q : String) (dom : Option String) :
    domainScore dom * domainSpecificityWeight ≤ weightedScore q dom := by
  have h1 : 0 ≤ techDensity q * technicalWeight :=
    mul_nonneg (count_factor_nonneg _ _ (by norm_num)) (by norm_num [technicalWeight])
  have h2 : 0 ≤ constraintScore q * constraintWeight :=
    mul_nonneg (count_factor_nonneg _ _ (by norm_num)) (by norm_num [constraintWeight])
  have h3 : 0 ≤ calcScore q * calculationWeight :=
    mul_nonneg (count_factor_nonneg _ _ (by norm_num)) (by norm_num [calculationWeight])
  have h4 : 0 ≤ standardsScore q * standardsWeight :=
    mul_nonneg (count_factor_nonneg _ _ (by norm_num)) (by norm_num [standardsWeight])
  have h5 : 0 ≤ integrationScore q * integrationWeight :=
    mul_nonneg (count_factor_nonneg _ _ (by norm_num)) (by norm_num [integrationWeight])
  simp only [weightedScore, techDensity, constraintScore, calcScore,
    standardsScore, integrationScore] at *
  linarith

/-- The length bonus is non-negative. -/
theorem lengthBonus_nonneg (q : String) : 0 ≤ lengthBonus q :=
  le_min (by positivity) (by norm_num)

/-- The final score field is the clamped weighted sum plus length bonus. -/
theorem final_score_def (q : String) (dom : Option String) :
    (calculate_complexity q dom).final_score
      = max 0 (min (weightedScore q dom + lengthBonus q) 1) := rfl

/-- The final complexity score always lies in [0, 1]. -/
theorem final_score_bounds (q : String) (dom : Option String) :
    0 ≤ (calculate_complexity q dom).final_score
      ∧ (calculate_complexity q dom).final_score ≤ 1 := by
  rw [final_score_def]
  exact ⟨le_max_left 0 _, max_le (by norm_num) (min_le_right _ 1)⟩

/-! ## Claim C5 -/

/-- C5: for every query, `calculate_complexity` returns a `final_score`
with `0.0 ≤ final_score ≤ 1.0`, and whenever no domain argument is given
the final score is at least the 0.3 domain-specificity floor times the
domain-specificity weight (0.225), so it is non-zero even with zero
keyword matches. -/
theorem C5_final_score_bounds_and_floor (q : String) (dom : Option String) :
    (0 ≤ (calculate_complexity q dom).final_score
      ∧ (calculate_complexity q dom).final_score ≤ 1)
    ∧ (dom = none →
        (3/10) * domainSpecificityWeight
          ≤ (calculate_complexity q dom).final_score) := by
  refine ⟨final_score_bounds q dom, ?_⟩
  intro hnone
  subst hnone
  rw [final_score_def]
  have hfloor : (3/10) * domainSpecificityWeight ≤ weightedScore q none := by
    have := weightedScore_ge_domain q none
    rwa [domainScore_none] at this
  have hlb := lengthBonus_nonneg q
  refine le_trans (le_min ?_ ?_) (le_max_right 0 _)
  · linarith
  · norm_num [domainSpecificityWeight]

/-- Witness for C5 at the empty query with no domain. -/
theorem C5_witness :
    (0 ≤ (calculate_complexity "" none).final_score
      ∧ (calculate_complexity "" none).final_score ≤ 1)
    ∧ (3/10) * domainSpecificityWeight
        ≤ (calculate_complexity "" none).final_score :=
  ⟨(C5_final_score_bounds_and_floor "" none).1,
   (C5_final_score_bounds_and_floor "" none).2 rfl⟩

/-! ## Claim C9 -/

/-- C9: for every text input (the empty and whitespace-only strings
included) and any category table, intent classification and complexity
scoring are total: `get_primary_intent` never takes the error branch of
the embedded `max()`, `classify_intent` yields one confidence per
category, and `calculate_complexity` always yields an in-range score. -/
theorem C9_classification_total (cats : List IntentCategory) (q : String)
    (dom : Option String) :
    (∃ p, get_primary_intent cats q = .ok p)
    ∧ (classify_intent cats q).length = cats.length
    ∧ (0 ≤ (calculate_complexity q dom).final_score
        ∧ (calculate_complexity q dom).final_score ≤ 1) := by
  refine ⟨?_, by simp [classify_intent], final_score_bounds q dom⟩
  by_cases h : (classify_intent cats q).isEmpty
  · exact ⟨("educational_content", 3/10), by simp [get_primary_intent, h]⟩
  · obtain ⟨p, hp⟩ := pyMax2_isSome (classify_intent cats q)
      (by simpa [List.isEmpty_iff] using h)
    exact ⟨p, by simp [get_primary_intent, h, pyMaxE, hp]⟩

/-! ## Claim C10 -/

/-- C10: the retrieval-summary confidence equals
`min(0.6 + [components ≠ ∅] · min(0.05·|components|, 0.3)
        + [standards ≠ ∅] · min(0.08·|standards|, 0.2)
        + [semantic available] · 0.1, 1.0)`,
and always lies in [0.6, 1.0]. -/
theorem C10_retrieval_confidence_formula (components : List RetrievedComponent)
    (standards : List StandardEntry) (va : Bool) :
    calculate_retrieval_confidence components standards va
      = min ((6/10)
          + (if components.isEmpty then 0
             else min ((components.length : ℚ) * (5/100)) (3/10))
          + (if standards.isEmpty then 0
             else min ((standards.length : ℚ) * (8/100)) (2/10))
          + (if va then 1/10 else 0)) 1
    ∧ 6/10 ≤ calculate_retrieval_confidence components standards va
    ∧ calculate_retrieval_confidence components standards va ≤ 1 := by
  have hc : (0:ℚ) ≤ (if components.isEmpty then 0
      else min ((components.length : ℚ) * (5/100)) (3/10)) := by
    split_ifs
    · exact le_refl 0
    · exact le_min (by positivity) (by norm_num)
  have hs : (0:ℚ) ≤ (if standards.isEmpty then 0
      else min ((standards.length : ℚ) * (8/100)) (2/10)) := by
    split_ifs
    · exact le_refl 0
    · exact le_min (by positivity) (by norm_num)
  have hv : (0:ℚ) ≤ (if va then (1:ℚ)/10 else 0) := by
    split_ifs <;> norm_num
  have heq : calculate_retrieval_confidence components standards va
      = min ((6/10)
          + (if components.isEmpty then 0
             else min ((components.length : ℚ) * (5/100)) (3/10))
          + (if standards.isEmpty then 0
             else min ((standards.length : ℚ) * (8/100)) (2/10))
          + (if va then 1/10 else 0)) 1 := by
    simp only [calculate_retrieval_confidence]
    split_ifs <;> ring_nf
  refine ⟨heq, ?_, ?_⟩
  · rw [heq]
    exact le_min (by linarith) (by norm_num)
  · rw [heq]
    exact min_le_right _ 1

/-! ## Claim C1 -/

/-- On the empty query every category scores zero: no keyword match and no
non-empty indicator substring is present. -/
theorem intentScore_empty_query (c : IntentCategory)
    (h : ∀ ind ∈ c.complexity_indicators, (lowerL ind).isEmpty = false) :
    intentScore c "" = 0 := by
  have hcnt : countKeywordMatches c.keywords "" = 0 := rfl
  simp only [intentScore, hcnt]
  rw [foldl_indicator_closed]
  have hfilter :
      (c.complexity_indicators.filter
        (fun ind => isSubAux (lowerL ind) (lowerL ""))).length = 0 := by
    rw [List.length_eq_zero, List.filter_eq_nil_iff]
    intro ind hind
    have : isSubAux (lowerL ind) (lowerL "") = (lowerL ind).isEmpty := rfl
    rw [this, h ind hind]
    exact Bool.false_ne_true
  rw [hfilter]
  norm_num

/-- The scores on the empty query, category by category. -/
theorem classify_intent_empty :
    classify_intent INTENT_CATEGORIES ""
      = INTENT_CATEGORIES.map (fun c => (c.name, (0:ℚ))) := by
  apply List.map_congr_left
  intro c hc
  have : intentScore c "" = 0 := by
    fin_cases hc <;> exact intentScore_empty_query _ (by decide)
  rw [this]

/-- C1 (code evaluated at the failing input): on a query with zero keyword
matches across all categories — the empty string — `get_primary_intent`
returns the first configured category with confidence 0.0.  The
`("educational_content", 0.3)` fallback is not returned: its guard
`if not intent_scores` only fires for an empty score mapping, which the
static category table never produces. -/
theorem C1_zero_score_fallback_dead :
    get_primary_intent INTENT_CATEGORIES "" = .ok ("component_selection", 0)
    ∧ (Except.ok ("component_selection", (0:ℚ))
        ≠ (.ok ("educational_content", 3/10) : Except String (String × ℚ))) := by
  constructor
  · have hform : classify_intent INTENT_CATEGORIES ""
        = ("component_selection", (0:ℚ)) ::
            (INTENT_CATEGORIES.tail.map (fun c => (c.name, (0:ℚ)))) := by
      rw [classify_intent_empty]
      rfl
    have hmax : pyMax2 (classify_intent INTENT_CATEGORIES "")
        = some ("component_selection", 0) := by
      rw [hform]
      apply pyMax2_cons_of_le
      intro y hy
      simp only [List.mem_map] at hy
      obtain ⟨c, _, hc⟩ := hy
      rw [← hc]
    simp only [get_primary_intent, hform, List.isEmpty_cons, pyMaxE,
      hform ▸ hmax]
    simp
  · intro h
    have := Except.ok.inj h
    have h2 : (0:ℚ) = 3/10 := congrArg Prod.snd this
    norm_num at h2

/-! ## Claim C6 -/

/-- C6: for every category table with multipliers in [0,1] and every
query, `classify_intent` returns, per category, exactly
`min((min(0.2·keyword_count, 1.0) + 0.1·indicator_count) · base_complexity, 1.0)`,
a value in [0,1]; and on a non-empty table the primary intent is the
arg-max of these confidences, ties broken by the first-encountered
category in iteration order (every earlier entry scores strictly less,
every later entry scores no more). -/
theorem C6_confidence_formula_and_argmax (cats : List IntentCategory)
    (q : String)
    (hmult : ∀ c ∈ cats, 0 ≤ c.base_complexity ∧ c.base_complexity ≤ 1) :
    classify_intent cats q
      = cats.map (fun c =>
          (c.name,
            min ((min ((countKeywordMatches c.keywords q : ℚ) * (2/10)) 1
              + (1/10) * (((c.complexity_indicators.filter
                  (fun ind => isSubAux (lowerL ind) (lowerL q))).length : ℚ)))
              * c.base_complexity) 1))
    ∧ (∀ p ∈ classify_intent cats q, 0 ≤ p.2 ∧ p.2 ≤ 1)
    ∧ (cats ≠ [] →
        ∃ p l1 l2, get_primary_intent cats q = .ok p
          ∧ classify_intent cats q = l1 ++ p :: l2
          ∧ (∀ y ∈ l1, y.2 < p.2) ∧ (∀ y ∈ l2, y.2 ≤ p.2)) := by
  have hform : classify_intent cats q
      = cats.map (fun c =>
          (c.name,
            min ((min ((countKeywordMatches c.keywords q : ℚ) * (2/10)) 1
              + (1/10) * (((c.complexity_indicators.filter
                  (fun ind => isSubAux (lowerL ind) (lowerL q))).length : ℚ)))
              * c.base_complexity) 1)) := by
    apply List.map_congr_left
    intro c _
    simp only [intentScore]
    rw [foldl_indicator_closed]
  refine ⟨hform, ?_, ?_⟩
  · intro p hp
    simp only [classify_intent, List.mem_map] at hp
    obtain ⟨c, hc, hcp⟩ := hp
    obtain ⟨h0, h1⟩ := hmult c hc
    have hscore : p.2 = intentScore c q := by rw [← hcp]
    rw [hscore]
    constructor
    · simp only [intentScore]
      rw [foldl_indicator_closed]
      have hbase : (0:ℚ) ≤ min ((countKeywordMatches c.keywords q : ℚ) * (2/10)) 1 :=
        count_factor_nonneg _ _ (by norm_num)
      have hboost : (0:ℚ) ≤ (1/10) *
          (((c.complexity_indicators.filter
            (fun ind => isSubAux (lowerL ind) (lowerL q))).length : ℚ)) := by
        positivity
      exact le_min (mul_nonneg (by linarith) h0) zero_le_one
    · exact min_le_right _ 1
  · intro hne
    have hcl : classify_intent cats q ≠ [] := by
      simp [classify_intent, hne]
    obtain ⟨p, l1, l2, h1, h2, h3, h4⟩ :=
      pyMax2_first_argmax (classify_intent cats q) hcl
    refine ⟨p, l1, l2, ?_, h2, h3, h4⟩
    simp only [get_primary_intent, pyMaxE, h1]
    rw [if_neg (by simpa [List.isEmpty_iff] using hcl)]

/-- Witness for C6 on a concrete two-category table and query. -/
theorem C6_witness :
    classify_intent [⟨"a_cat", ["volt"], ["ripple"], 1/2⟩,
        ⟨"b_cat", ["amp"], [], 1⟩] "volt ripple amp"
      = [("a_cat", min ((min ((1:ℚ) * (2/10)) 1 + (1/10) * (1:ℚ)) * (1/2)) 1),
         ("b_cat", min ((min ((1:ℚ) * (2/10)) 1 + (1/10) * (0:ℚ)) * 1) 1)]
    ∧ (∀ p ∈ classify_intent [⟨"a_cat", ["volt"], ["ripple"], 1/2⟩,
          ⟨"b_cat", ["amp"], [], 1⟩] "volt ripple amp", 0 ≤ p.2 ∧ p.2 ≤ 1)
    ∧ (∃ p l1 l2,
        get_primary_intent [⟨"a_cat", ["volt"], ["ripple"], 1/2⟩,
          ⟨"b_cat", ["amp"], [], 1⟩] "volt ripple amp" = .ok p
        ∧ classify_intent [⟨"a_cat", ["volt"], ["ripple"], 1/2⟩,
            ⟨"b_cat", ["amp"], [], 1⟩] "volt ripple amp" = l1 ++ p :: l2
        ∧ (∀ y ∈ l1, y.2 < p.2) ∧ (∀ y ∈ l2, y.2 ≤ p.2)) := by
  obtain ⟨h1, h2, h3⟩ := C6_confidence_formula_and_argmax
    [⟨"a_cat", ["volt"], ["ripple"], 1/2⟩, ⟨"b_cat", ["amp"], [], 1⟩]
    "volt ripple amp"
    (by intro c hc; fin_cases hc <;> constructor <;> norm_num)
  refine ⟨?_, h2, h3 (by simp)⟩
  rw [h1]
  have hva : countKeywordMatches ["volt"] "volt ripple amp" = 1 := by decide
  have hvb : countKeywordMatches ["amp"] "volt ripple amp" = 1 := by decide
  have hfa : ((["ripple"].filter
      (fun ind => isSubAux (lowerL ind) (lowerL "volt ripple amp"))).length) = 1 := by
    decide
  simp [hva, hvb, hfa]

/-! ## Claim C7 -/

/-- Highest-first evaluation of the threshold table as an explicit
if-chain. -/
theorem select_model_eq (s : ℚ) :
    select_model s =
      if 8/10 ≤ s then "claude_sonnet_4"
      else if 6/10 ≤ s then "grok_2"
      else if 4/10 ≤ s then "gpt_4o"
      else "gpt_4o_mini" := by
  simp only [select_model, COMPLEXITY_THRESHOLDS, List.find?, ge_iff_le]
  by_cases h8 : (8:ℚ)/10 ≤ s
  · simp [h8]
  · by_cases h6 : (6:ℚ)/10 ≤ s
    · simp [h8, h6]
    · by_cases h4 : (4:ℚ)/10 ≤ s
      · simp [h8, h6, h4]
      · by_cases h0 : (0:ℚ) ≤ s
        · simp [h8, h6, h4, h0]
        · simp [h8, h6, h4, h0]

/-- The boundary-escalation variant as an explicit if-chain. -/
theorem select_model_with_escalation_eq (s : ℚ) :
    select_model_with_escalation s =
      if 8/10 - 5/100 ≤ s then "claude_sonnet_4"
      else if 6/10 - 5/100 ≤ s then "grok_2"
      else if 4/10 - 5/100 ≤ s then "gpt_4o"
      else "gpt_4o_mini" := by
  simp only [select_model_with_escalation, COMPLEXITY_THRESHOLDS, List.find?,
    ge_iff_le]
  by_cases h8 : (8:ℚ)/10 - 5/100 ≤ s
  · simp [h8]
  · by_cases h6 : (6:ℚ)/10 - 5/100 ≤ s
    · simp [h8, h6]
    · by_cases h4 : (4:ℚ)/10 - 5/100 ≤ s
      · simp [h8, h6, h4]
      · cases hd : decide (-((5:ℚ)/100) ≤ s) <;> simp [h8, h6, h4, hd]

/-- C7: the router evaluates its thresholds highest-first (≥0.8 the
highest-capability model, else ≥0.6, else ≥0.4, else lightweight), so for
a fixed intent and domain the selected capability tier is monotonically
non-decreasing in the complexity score; and the boundary-escalation policy
can only move the selection to a more capable tier, never a less capable
one. -/
theorem C7_router_monotone (s1 s2 : ℚ) (h : s1 ≤ s2) :
    modelTier (select_model s1) ≤ modelTier (select_model s2)
    ∧ (∀ s : ℚ, modelTier (select_model s)
        ≤ modelTier (select_model_with_escalation s)) := by
  constructor
  · rw [select_model_eq, select_model_eq]
    split_ifs <;> first | decide | (exfalso; linarith)
  · intro s
    rw [select_model_eq, select_model_with_escalation_eq]
    split_ifs <;> first | decide | (exfalso; linarith)

/-- Witness for C7 at the concrete scores 0.3 ≤ 0.9. -/
theorem C7_witness :
    modelTier (select_model (3/10)) ≤ modelTier (select_model (9/10))
    ∧ (∀ s : ℚ, modelTier (select_model s)
        ≤ modelTier (select_model_with_escalation s)) :=
  C7_router_monotone (3/10) (9/10) (by norm_num)

/-! ## Claim C2 -/

/-- C2 counterexample: with the semantic strategy returning a component
and the intent-based strategy raising, `retrieve_knowledge` returns the
error — it does not return the remaining strategies' results.  There is no
per-strategy `try`/`except` in `_retrieve_components`. -/
theorem C2_counterexample :
    retrieve_knowledge true
        (.ok [⟨"SEM-1", 9/10, "semantic_search", ["semantic_similarity"]⟩])
        (.error "malformed domain mapping")
        (.ok [⟨"DOM-1", 3/4, "domain_specific", ["automotive_qualified"]⟩])
        [] [] [] "buck converter" "automotive"
      = .error "malformed domain mapping"
    ∧ ∀ kr, retrieve_knowledge true
        (.ok [⟨"SEM-1", 9/10, "semantic_search", ["semantic_similarity"]⟩])
        (.error "malformed domain mapping")
        (.ok [⟨"DOM-1", 3/4, "domain_specific", ["automotive_qualified"]⟩])
        [] [] [] "buck converter" "automotive"
      ≠ .ok kr := by
  constructor
  · rfl
  · intro kr h
    rw [show retrieve_knowledge true
        (.ok [⟨"SEM-1", 9/10, "semantic_search", ["semantic_similarity"]⟩])
        (.error "malformed domain mapping")
        (.ok [⟨"DOM-1", 3/4, "domain_specific", ["automotive_qualified"]⟩])
        [] [] [] "buck converter" "automotive"
      = .error "malformed domain mapping" from rfl] at h
    exact Except.noConfusion h

/-- C2 amended: an exception raised by any of the three strategies
propagates out of `retrieve_knowledge` and aborts the call (only the
semantic strategy can be skipped, via the construction-time availability
flag); when no executed strategy raises, the call returns the
concatenated results deduplicated, ranked and truncated to 10. -/
theorem C2_amended_exception_propagates (va : Bool)
    (sem intB domB : Except String (List RetrievedComponent))
    (dstd : List Standard) (reqs : List String) (tbl : List Standard)
    (q pd : String) (e : String) :
    (va = true → sem = .error e →
      retrieve_knowledge va sem intB domB dstd reqs tbl q pd = .error e)
    ∧ (∀ s, (if va then sem else pure []) = .ok s → intB = .error e →
        retrieve_knowledge va sem intB domB dstd reqs tbl q pd = .error e)
    ∧ (∀ s i, (if va then sem else pure []) = .ok s → intB = .ok i →
        domB = .error e →
        retrieve_knowledge va sem intB domB dstd reqs tbl q pd = .error e)
    ∧ (∀ s i d, (if va then sem else pure []) = .ok s → intB = .ok i →
        domB = .ok d →
        retrieve_components va sem intB domB pd
          = .ok ((rank_components pd
              (deduplicate_components (s ++ i ++ d))).take 10)) := by
  refine ⟨?_, ?_, ?_, ?_⟩
  · intro hva hsem
    subst hva
    rw [hsem]
    rfl
  · intro s hs hint
    cases va
    · rw [hint]
      rfl
    · simp only [if_pos] at hs
      rw [hs, hint]
      rfl
  · intro s i hs hint hdom
    cases va
    · rw [hint, hdom]
      rfl
    · simp only [if_pos] at hs
      rw [hs, hint, hdom]
      rfl
  · intro s i d hs hint hdom
    cases va
    · have hs2 : ([] : List RetrievedComponent) = s := Except.ok.inj hs
      rw [← hs2] at *
      rw [hint, hdom]
      rfl
    · simp only [if_pos] at hs
      rw [hs, hint, hdom]
      rfl

/-- Witness for C2's amended theorem: intent strategy raising aborts the
call; three successful strategies produce the ranked pipeline result. -/
theorem C2_witness :
    retrieve_knowledge true
        (.ok [⟨"SEM-1", 9/10, "semantic_search", []⟩]) (.error "boom")
        (.ok []) [] [] [] "q" "general"
      = .error "boom"
    ∧ retrieve_components false (.ok []) (.ok [⟨"I-1", 7/10, "intent_based", []⟩])
        (.ok []) "general"
      = .ok ((rank_components "general"
          (deduplicate_components ([] ++ [⟨"I-1", 7/10, "intent_based", []⟩] ++ []))).take 10) :=
  ⟨(C2_amended_exception_propagates true
      (.ok [⟨"SEM-1", 9/10, "semantic_search", []⟩]) (.error "boom")
      (.ok []) [] [] [] "q" "general" "boom").2.1
      [⟨"SEM-1", 9/10, "semantic_search", []⟩] rfl rfl,
   (C2_amended_exception_propagates false (.ok [])
      (.ok [⟨"I-1", 7/10, "intent_based", []⟩]) (.ok [])
      [] [] [] "q" "general" "unused").2.2.2
      [] [⟨"I-1", 7/10, "intent_based", []⟩] [] rfl rfl rfl⟩

/-! ## Deduplication and ranking lemmas -/

/-- Every entry surviving deduplication avoids the seen set and is the
first occurrence of its `component_id` in the remaining input. -/
theorem deduplicate_components_aux_mem (l : List RetrievedComponent) :
    ∀ (seen : List String), ∀ c ∈ deduplicate_components_aux seen l,
      c.component_id ∉ seen
      ∧ ∃ l1 l2, l = l1 ++ c :: l2
          ∧ ∀ y ∈ l1, y.component_id ≠ c.component_id := by
  induction l with
  | nil => intro seen c hc; simp [deduplicate_components_aux] at hc
  | cons x rest ih =>
      intro seen c hc
      simp only [deduplicate_components_aux] at hc
      by_cases hx : seen.contains x.component_id
      · rw [if_pos hx] at hc
        obtain ⟨hnot, l1, l2, hdec, hfront⟩ := ih seen c hc
        have hxseen : x.component_id ∈ seen := by
          simpa using hx
        refine ⟨hnot, x :: l1, l2, by simp [hdec], ?_⟩
        intro y hy
        rcases List.mem_cons.mp hy with hy | hy
        · subst hy
          intro hcontra
          exact hnot (hcontra ▸ hxseen)
        · exact hfront y hy
      · rw [if_neg hx] at hc
        rcases List.mem_cons.mp hc with hc | hc
        · subst hc
          refine ⟨by simpa using hx, [], rest, rfl, by simp⟩
        · obtain ⟨hnot, l1, l2, hdec, hfront⟩ := ih _ c hc
          have hne : x.component_id ≠ c.component_id := by
            intro hcontra
            exact hnot (by simp [hcontra])
          refine ⟨fun hmem => hnot (by simp [hmem]), x :: l1, l2,
            by simp [hdec], ?_⟩
          intro y hy
          rcases List.mem_cons.mp hy with hy | hy
          · exact hy ▸ hne
          · exact hfront y hy

/-- Deduplication yields pairwise-distinct component ids. -/
theorem deduplicate_components_aux_pairwise (l : List RetrievedComponent) :
    ∀ seen : List String,
      (deduplicate_components_aux seen l).Pairwise
        (fun a b => a.component_id ≠ b.component_id) := by
  induction l with
  | nil => intro seen; simp [deduplicate_components_aux]
  | cons x rest ih =>
      intro seen
      simp only [deduplicate_components_aux]
      by_cases hx : seen.contains x.component_id
      · rw [if_pos hx]
        exact ih seen
      · rw [if_neg hx]
        refine List.Pairwise.cons ?_ (ih _)
        intro y hy
        have := (deduplicate_components_aux_mem rest _ y hy).1
        intro hcontra
        exact this (by simp [hcontra])

/-- `insertDesc` inserts, up to permutation. -/
theorem insertDesc_perm (key : RetrievedComponent → ℚ)
    (c : RetrievedComponent) (l : List RetrievedComponent) :
    (insertDesc key c l).Perm (c :: l) := by
  induction l with
  | nil => exact List.Perm.refl _
  | cons x xs ih =>
      simp only [insertDesc]
      split_ifs
      · exact List.Perm.refl _
      · exact (List.Perm.cons x ih).trans (List.Perm.swap c x xs)

/-- `sortDesc` permutes its input. -/
theorem sortDesc_perm (key : RetrievedComponent → ℚ)
    (l : List RetrievedComponent) : (sortDesc key l).Perm l := by
  induction l with
  | nil => exact List.Perm.refl _
  | cons x xs ih =>
      exact (insertDesc_perm key x (sortDesc key xs)).trans (List.Perm.cons x ih)

/-- Inserting into a descending-sorted list keeps it sorted. -/
theorem insertDesc_sorted (key : RetrievedComponent → ℚ)
    (c : RetrievedComponent) (l : List RetrievedComponent)
    (h : l.Pairwise (fun a b => key b ≤ key a)) :
    (insertDesc key c l).Pairwise (fun a b => key b ≤ key a) := by
  induction l with
  | nil => simp [insertDesc]
  | cons x xs ih =>
      simp only [insertDesc]
      split_ifs with hxc
      · refine List.Pairwise.cons ?_ h
        intro y hy
        rcases List.mem_cons.mp hy with hy | hy
        · exact hy ▸ hxc
        · exact le_trans (List.rel_of_pairwise_cons h hy) hxc
      · refine List.Pairwise.cons ?_ (ih (List.Pairwise.of_cons h))
        intro y hy
        have hy2 := (insertDesc_perm key c xs).mem_iff.mp hy
        rcases List.mem_cons.mp hy2 with hy2 | hy2
        · exact hy2 ▸ le_of_lt (not_le.mp hxc)
        · exact List.rel_of_pairwise_cons h hy2

/-- The stable descending sort is sorted by its key. -/
theorem sortDesc_sorted (key : RetrievedComponent → ℚ)
    (l : List RetrievedComponent) :
    (sortDesc key l).Pairwise (fun a b => key b ≤ key a) := by
  induction l with
  | nil => simp [sortDesc]
  | cons x xs ih => exact insertDesc_sorted key x _ ih

/-! ## Claim C3 -/

/-- C3: when component retrieval completes, the returned list has at most
10 entries, no two entries share a `component_id`, and each returned entry
is the first occurrence of its id in the concatenated strategy output
(semantic — when available — then intent-based, then domain-specific),
regardless of later duplicates' scores. -/
theorem C3_dedup_bound_first_occurrence (va : Bool)
    (s i d : List RetrievedComponent) (pd : String)
    (out : List RetrievedComponent)
    (h : retrieve_components va (.ok s) (.ok i) (.ok d) pd = .ok out) :
    out.length ≤ 10
    ∧ out.Pairwise (fun a b => a.component_id ≠ b.component_id)
    ∧ ∀ c ∈ out, firstOcc ((if va then s else []) ++ i ++ d) c := by
  have hout : out = (rank_components pd
      (deduplicate_components ((if va then s else []) ++ i ++ d))).take 10 := by
    cases va
    · exact (Except.ok.inj h).symm
    · exact (Except.ok.inj h).symm
  subst hout
  refine ⟨List.length_take_le 10 _, ?_, ?_⟩
  · have hdedup := deduplicate_components_aux_pairwise
      ((if va then s else []) ++ i ++ d) []
    have hperm := sortDesc_perm
      (ranking_key pd) (deduplicate_components ((if va then s else []) ++ i ++ d))
    have hsorted : (rank_components pd
        (deduplicate_components ((if va then s else []) ++ i ++ d))).Pairwise
        (fun a b => a.component_id ≠ b.component_id) := by
      refine (List.Perm.pairwise_iff ?_ hperm).mpr hdedup
      intro a b hab
      exact fun hcontra => hab hcontra.symm
    exact hsorted.sublist (List.take_sublist 10 _)
  · intro c hc
    have hc2 : c ∈ rank_components pd
        (deduplicate_components ((if va then s else []) ++ i ++ d)) :=
      List.take_subset 10 _ hc
    have hc3 : c ∈ deduplicate_components
        ((if va then s else []) ++ i ++ d) :=
      (sortDesc_perm (ranking_key pd) _).mem_iff.mp hc2
    obtain ⟨_, l1, l2, hdec, hfront⟩ :=
      deduplicate_components_aux_mem _ [] c hc3
    exact ⟨l1, l2, hdec, hfront⟩

/-- Witness for C3: a duplicate id found later by the intent strategy with
a higher score is dropped; the first occurrence is kept. -/
theorem C3_witness :
    ([(⟨"X", 9/10, "semantic_search", []⟩ : RetrievedComponent)].length ≤ 10)
    ∧ ([(⟨"X", 9/10, "semantic_search", []⟩ : RetrievedComponent)].Pairwise
        (fun a b => a.component_id ≠ b.component_id))
    ∧ ∀ c ∈ [(⟨"X", 9/10, "semantic_search", []⟩ : RetrievedComponent)],
        firstOcc ((if true then [⟨"X", 9/10, "semantic_search", []⟩] else [])
          ++ [⟨"X", 95/100, "intent_based", []⟩] ++ []) c :=
  C3_dedup_bound_first_occurrence true
    [⟨"X", 9/10, "semantic_search", []⟩]
    [⟨"X", 95/100, "intent_based", []⟩] [] "general"
    [⟨"X", 9/10, "semantic_search", []⟩] rfl

/-! ## Claim C8 -/

/-- The four method boosts, evaluated. -/
theorem methodBoost_semantic : methodBoost "semantic_search" = 1/10 := rfl

theorem methodBoost_compliance : methodBoost "compliance_based" = 8/100 := rfl

theorem methodBoost_domain : methodBoost "domain_specific" = 6/100 := rfl

theorem methodBoost_intent : methodBoost "intent_based" = 4/100 := rfl

/-- C8 counterexample: in a medical-domain context, a candidate whose
relevance factors mention the detected domain gets no alignment bonus —
the code only grants it for `"automotive"`.  With base scores 0.70 (with
`medical_qualified` factor) and 0.73 (no factors), the spec's key would
rank the first candidate higher (0.79 vs 0.77), but the code ranks it
lower (0.74 vs 0.77), so the output is not sorted by the claimed key. -/
theorem C8_counterexample :
    rank_components "medical"
        [⟨"C-1", 7/10, "intent_based", ["medical_qualified"]⟩,
         ⟨"C-2", 73/100, "intent_based", []⟩]
      = [⟨"C-2", 73/100, "intent_based", []⟩,
         ⟨"C-1", 7/10, "intent_based", ["medical_qualified"]⟩]
    ∧ spec_ranking_key "medical" ⟨"C-2", 73/100, "intent_based", []⟩
        < spec_ranking_key "medical" ⟨"C-1", 7/10, "intent_based", ["medical_qualified"]⟩
    ∧ ¬ (rank_components "medical"
        [⟨"C-1", 7/10, "intent_based", ["medical_qualified"]⟩,
         ⟨"C-2", 73/100, "intent_based", []⟩]).Pairwise
        (fun a b => spec_ranking_key "medical" b ≤ spec_ranking_key "medical" a) := by
  have hk1 : ranking_key "medical"
      ⟨"C-1", 7/10, "intent_based", ["medical_qualified"]⟩ = 7/10 + 4/100 := by
    simp only [ranking_key]
    rw [if_neg (by decide), methodBoost_intent]
  have hk2 : ranking_key "medical"
      ⟨"C-2", 73/100, "intent_based", []⟩ = 73/100 + 4/100 := by
    simp only [ranking_key]
    rw [if_neg (by decide), methodBoost_intent]
  have hs1 : spec_ranking_key "medical"
      ⟨"C-1", 7/10, "intent_based", ["medical_qualified"]⟩
      = 7/10 + 4/100 + 5/100 := by
    simp only [spec_ranking_key]
    rw [if_pos (by decide), methodBoost_intent]
  have hs2 : spec_ranking_key "medical"
      ⟨"C-2", 73/100, "intent_based", []⟩ = 73/100 + 4/100 + 0 := by
    simp only [spec_ranking_key]
    rw [if_neg (by decide), methodBoost_intent]
  have hrank : rank_components "medical"
      [⟨"C-1", 7/10, "intent_based", ["medical_qualified"]⟩,
       ⟨"C-2", 73/100, "intent_based", []⟩]
      = [⟨"C-2", 73/100, "intent_based", []⟩,
         ⟨"C-1", 7/10, "intent_based", ["medical_qualified"]⟩] := by
    simp only [rank_components, sortDesc, insertDesc]
    rw [if_neg]
    rw [hk1, hk2]
    norm_num
  have hkey : spec_ranking_key "medical" ⟨"C-2", 73/100, "intent_based", []⟩
      < spec_ranking_key "medical"
        ⟨"C-1", 7/10, "intent_based", ["medical_qualified"]⟩ := by
    rw [hs1, hs2]
    norm_num
  refine ⟨hrank, hkey, ?_⟩
  rw [hrank]
  intro hpair
  cases hpair with
  | cons h1 _ =>
      exact absurd
        (h1 ⟨"C-1", 7/10, "intent_based", ["medical_qualified"]⟩ (by simp))
        (not_le.mpr hkey)

/-- C8 amended: ranking sorts candidates in descending order of base
similarity plus the strictly-descending method boost
(semantic 0.10 > compliance 0.08 > domain-specific 0.06 > intent 0.04),
plus a 0.05 domain-alignment bonus granted only when the detected domain
is `"automotive"` and the candidate's relevance factors mention
`"automotive"`; for every other detected domain no alignment bonus is
applied. -/
theorem C8_amended_ranking (pd : String) (l : List RetrievedComponent) :
    (rank_components pd l).Pairwise
      (fun a b => ranking_key pd b ≤ ranking_key pd a)
    ∧ (rank_components pd l).Perm l
    ∧ (methodBoost "semantic_search" > methodBoost "compliance_based"
        ∧ methodBoost "compliance_based" > methodBoost "domain_specific"
        ∧ methodBoost "domain_specific" > methodBoost "intent_based"
        ∧ methodBoost "intent_based" > 0)
    ∧ (∀ c : RetrievedComponent, pd ≠ "automotive" →
        ranking_key pd c = c.similarity_score + methodBoost c.retrieval_method)
    ∧ (∀ c : RetrievedComponent, pd = "automotive" →
        (c.relevance_factors.any
          (fun f => isSubAux (lowerL "automotive") (lowerL f))) = true →
        ranking_key pd c
          = c.similarity_score + methodBoost c.retrieval_method + 5/100) := by
  refine ⟨sortDesc_sorted _ l, sortDesc_perm _ l, ?_, ?_, ?_⟩
  · rw [methodBoost_semantic, methodBoost_compliance, methodBoost_domain,
      methodBoost_intent]
    norm_num
  · intro c hpd
    simp [ranking_key, hpd]
  · intro c hpd hfac
    subst hpd
    simp [ranking_key, hfac]
    ring

/-- Witness for C8's amended theorem in a medical-domain context. -/
theorem C8_witness :
    (rank_components "medical"
        [⟨"C-9", 1/2, "domain_specific", []⟩]).Pairwise
      (fun a b => ranking_key "medical" b ≤ ranking_key "medical" a)
    ∧ (rank_components "medical"
        [⟨"C-9", 1/2, "domain_specific", []⟩]).Perm
        [⟨"C-9", 1/2, "domain_specific", []⟩]
    ∧ (methodBoost "semantic_search" > methodBoost "compliance_based"
        ∧ methodBoost "compliance_based" > methodBoost "domain_specific"
        ∧ methodBoost "domain_specific" > methodBoost "intent_based"
        ∧ methodBoost "intent_based" > 0)
    ∧ (∀ c : RetrievedComponent, "medical" ≠ "automotive" →
        ranking_key "medical" c
          = c.similarity_score + methodBoost c.retrieval_method)
    ∧ (∀ c : RetrievedComponent, "medical" = "automotive" →
        (c.relevance_factors.any
          (fun f => isSubAux (lowerL "automotive") (lowerL f))) = true →
        ranking_key "medical" c
          = c.similarity_score + methodBoost c.retrieval_method + 5/100) :=
  C8_amended_ranking "medical" [⟨"C-9", 1/2, "domain_specific", []⟩]

/-! ## Claim C4 -/

/-- C4 counterexample: a standard tagged to the detected domain whose
requirement also matches the query text is appended twice — once at 0.9 by
the domain pass and once at 0.95 by the query pass.  The result contains
two entries with the same parent standard. -/
theorem C4_counterexample :
    retrieve_standards [⟨"ISO 26262", ["REQ-26262-1"]⟩] ["REQ-26262-1"]
        [⟨"ISO 26262", ["REQ-26262-1"]⟩] "iso 26262 asil requirements"
        "automotive"
      = [⟨"ISO 26262", 9/10, "domain_based", none, some "automotive"⟩,
         ⟨"ISO 26262", 95/100, "query_based", some "REQ-26262-1", none⟩]
    ∧ ¬ (retrieve_standards [⟨"ISO 26262", ["REQ-26262-1"]⟩] ["REQ-26262-1"]
        [⟨"ISO 26262", ["REQ-26262-1"]⟩] "iso 26262 asil requirements"
        "automotive").Pairwise
        (fun a b => a.standard_id ≠ b.standard_id) := by
  have heq : retrieve_standards [⟨"ISO 26262", ["REQ-26262-1"]⟩] ["REQ-26262-1"]
      [⟨"ISO 26262", ["REQ-26262-1"]⟩] "iso 26262 asil requirements"
      "automotive"
      = [⟨"ISO 26262", 9/10, "domain_based", none, some "automotive"⟩,
         ⟨"ISO 26262", 95/100, "query_based", some "REQ-26262-1", none⟩] := rfl
  refine ⟨heq, ?_⟩
  rw [heq]
  intro hpair
  cases hpair with
  | cons h1 _ =>
      exact (h1 ⟨"ISO 26262", 95/100, "query_based", some "REQ-26262-1", none⟩
        (by simp)) rfl

/-- C4 amended: standards retrieval returns every standard tagged to the
detected domain at relevance 0.9 plus, when the query text contains a
known standard identifier, the parent standard of each of the first 3
matched requirements at relevance 0.95; these parent-standard entries are
not deduplicated against the domain entries or each other, so a standard
can appear more than once. -/
theorem C4_amended_standards (dstd : List Standard) (reqs : List String)
    (tbl : List Standard) (q pd : String)
    (hq : STANDARD_QUERY_KEYWORDS.any
      (fun kw => isSubAux (lowerL kw) (lowerL q)) = true) :
    (∀ s ∈ dstd,
      ({ standard_id := s.std_id, relevance_score := 9/10,
         retrieval_method := "domain_based", specific_requirement := none,
         applicable_to := some pd } : StandardEntry)
        ∈ retrieve_standards dstd reqs tbl q pd)
    ∧ (∀ req ∈ reqs.take 3, ∀ s : Standard,
        tbl.find? (fun t => t.requirements.contains req) = some s →
        ({ standard_id := s.std_id, relevance_score := 95/100,
           retrieval_method := "query_based", specific_requirement := some req,
           applicable_to := none } : StandardEntry)
          ∈ retrieve_standards dstd reqs tbl q pd)
    ∧ (∀ e ∈ retrieve_standards dstd reqs tbl q pd,
        (e.retrieval_method = "domain_based" ∧ e.relevance_score = 9/10
          ∧ ∃ s ∈ dstd, e.standard_id = s.std_id)
        ∨ (e.retrieval_method = "query_based" ∧ e.relevance_score = 95/100
          ∧ ∃ req ∈ reqs.take 3, e.specific_requirement = some req)) := by
  refine ⟨?_, ?_, ?_⟩
  · intro s hs
    simp only [retrieve_standards, hq, if_true]
    apply List.mem_append_left
    exact List.mem_map.mpr ⟨s, hs, rfl⟩
  · intro req hreq s hfind
    simp only [retrieve_standards, hq, if_true]
    apply List.mem_append_right
    refine List.mem_filterMap.mpr ⟨req, hreq, ?_⟩
    rw [hfind]
    rfl
  · intro e he
    simp only [retrieve_standards, hq, if_true] at he
    rcases List.mem_append.mp he with he | he
    · obtain ⟨s, hs, hes⟩ := List.mem_map.mp he
      left
      refine ⟨?_, ?_, s, hs, ?_⟩ <;> rw [← hes]
    · obtain ⟨req, hreq, hmap⟩ := List.mem_filterMap.mp he
      obtain ⟨s, _, hgs⟩ := Option.map_eq_some'.mp hmap
      right
      refine ⟨?_, ?_, req, hreq, ?_⟩ <;> rw [← hgs]

/-- Witness for C4's amended theorem on concrete data. -/
theorem C4_witness :
    (∀ s ∈ [(⟨"AEC-Q100", ["REQ-A"]⟩ : Standard)],
      ({ standard_id := s.std_id, relevance_score := 9/10,
         retrieval_method := "domain_based", specific_requirement := none,
         applicable_to := some "automotive" } : StandardEntry)
        ∈ retrieve_standards [⟨"AEC-Q100", ["REQ-A"]⟩] ["REQ-B"]
            [⟨"ISO 26262", ["REQ-B"]⟩] "aec-q100 grade" "automotive")
    ∧ (∀ req ∈ ["REQ-B"].take 3, ∀ s : Standard,
        [(⟨"ISO 26262", ["REQ-B"]⟩ : Standard)].find?
            (fun t => t.requirements.contains req) = some s →
        ({ standard_id := s.std_id, relevance_score := 95/100,
           retrieval_method := "query_based", specific_requirement := some req,
           applicable_to := none } : StandardEntry)
          ∈ retrieve_standards [⟨"AEC-Q100", ["REQ-A"]⟩] ["REQ-B"]
              [⟨"ISO 26262", ["REQ-B"]⟩] "aec-q100 grade" "automotive")
    ∧ (∀ e ∈ retrieve_standards [⟨"AEC-Q100", ["REQ-A"]⟩] ["REQ-B"]
          [⟨"ISO 26262", ["REQ-B"]⟩] "aec-q100 grade" "automotive",
        (e.retrieval_method = "domain_based" ∧ e.relevance_score = 9/10
          ∧ ∃ s ∈ [(⟨"AEC-Q100", ["REQ-A"]⟩ : Standard)], e.standard_id = s.std_id)
        ∨ (e.retrieval_method = "query_based" ∧ e.relevance_score = 95/100
          ∧ ∃ req ∈ ["REQ-B"].take 3, e.specific_requirement = some req)) :=
  C4_amended_standards [⟨"AEC-Q100", ["REQ-A"]⟩] ["REQ-B"]
    [⟨"ISO 26262", ["REQ-B"]⟩] "aec-q100 grade" "automotive" (by decide)
